import Mathlib

/- Verification of the mysqld exporter scrape-classify-expose pipeline
   (mysqld_exporter.go). The Go source is embedded shallowly: byte strings
   become lists of characters, float64 metric values become rationals (the
   code stores them and performs one division, never anything that depends
   on binary rounding), each prometheus gauge object becomes a record
   carrying an allocation identifier that models pointer identity, and the
   database driver becomes an explicit environment record describing the
   outcome of every external call made during one scrape. -/

/-- Model of regexp.Find with the pattern dot-digits-endanchor used by
parseStatus: the leftmost occurrence of a literal dot followed by one or
more digits that run to the end of the input, returned as the full match
(dot included), or none when there is no match. Only the last dot of the
input can start such a match, and leftmost scanning finds it. -/
def goFindDotDigits : List Char → Option (List Char)
  | [] => none
  | c :: cs =>
    if c = '.' ∧ cs ≠ [] ∧ cs.all Char.isDigit = true then some (c :: cs)
    else goFindDotDigits cs

/-- Embedding of parseStatus from mysqld_exporter.go, lines 268 to 287:
compare against the literals Yes and No first, then return the digits of
the trailing dot-digits match when present, otherwise the input itself. -/
def parseStatus (data : List Char) : List Char :=
  let logNum := (goFindDotDigits data).getD []
  if data = "Yes".toList then "1".toList
  else if data = "No".toList then "0".toList
  else if logNum.length > 1 then logNum.drop 1
  else data

theorem goFindDotDigits_append (pre ds : List Char) (hne : ds ≠ [])
    (hdig : ds.all Char.isDigit = true) :
    goFindDotDigits (pre ++ '.' :: ds) = some ('.' :: ds) := by
  induction pre with
  | nil => simp [goFindDotDigits, hne, hdig]
  | cons a pre ih =>
    rw [List.cons_append, goFindDotDigits, if_neg, ih]
    rintro ⟨ha, h2, h3⟩
    have hmem : '.' ∈ pre ++ '.' :: ds := by simp
    have := List.all_eq_true.mp h3 '.' hmem
    simp [Char.isDigit] at this

theorem goFindDotDigits_sound (data m : List Char) (h : goFindDotDigits data = some m) :
    ∃ pre ds, data = pre ++ '.' :: ds ∧ ds ≠ [] ∧ ds.all Char.isDigit = true ∧
      m = '.' :: ds := by
  induction data with
  | nil => simp [goFindDotDigits] at h
  | cons c cs ih =>
    rw [goFindDotDigits] at h
    split at h
    · next hcond =>
      obtain ⟨h1, h2, h3⟩ := hcond
      refine ⟨[], cs, by simp [h1], h2, h3, ?_⟩
      injection h with h
      rw [← h, h1]
    · next =>
      obtain ⟨pre, ds, hd, hne, hdig, hm⟩ := ih h
      exact ⟨c :: pre, ds, by rw [List.cons_append, hd], hne, hdig, hm⟩

/-- C1: parseStatus is a total function on byte strings following these
rules in priority order: exactly Yes returns 1, exactly No returns 0, an
input ending in a literal dot followed by one or more digits returns
exactly the digits after that final dot, and any other input is returned
unchanged. -/
theorem c1_parseStatus_rules (data pre ds : List Char) :
    (data = "Yes".toList → parseStatus data = "1".toList) ∧
    (data = "No".toList → parseStatus data = "0".toList) ∧
    (data ≠ "Yes".toList → data ≠ "No".toList → data = pre ++ '.' :: ds →
      ds ≠ [] → ds.all Char.isDigit = true → parseStatus data = ds) ∧
    (data ≠ "Yes".toList → data ≠ "No".toList →
      (∀ pre2 ds2, data = pre2 ++ '.' :: ds2 → ds2.all Char.isDigit = true → ds2 = []) →
      parseStatus data = data) := by
  refine ⟨?_, ?_, ?_, ?_⟩
  · intro h; subst h; decide
  · intro h; subst h; decide
  · intro hy hn hdata hne hdig
    have hf : goFindDotDigits data = some ('.' :: ds) := by
      rw [hdata]; exact goFindDotDigits_append pre ds hne hdig
    have hlen : ('.' :: ds).length > 1 := by
      cases ds with
      | nil => exact absurd rfl hne
      | cons x xs => simp
    simp only [parseStatus, hf, Option.getD_some]
    rw [if_neg hy, if_neg hn, if_pos hlen]
    rfl
  · intro hy hn hno
    cases hf : goFindDotDigits data with
    | none =>
      simp only [parseStatus, hf, Option.getD_none]
      rw [if_neg hy, if_neg hn, if_neg (by decide)]
    | some m =>
      obtain ⟨pre2, ds2, hd2, hne2, hdig2, _⟩ := goFindDotDigits_sound data m hf
      exact absurd (hno pre2 ds2 hd2 hdig2) hne2

theorem c1_parseStatus_rules_witness :
    parseStatus ("master-bin.000123".toList) = "000123".toList :=
  (c1_parseStatus_rules ("master-bin.000123".toList) ("master-bin".toList)
      ("000123".toList)).2.2.1 (by decide) (by decide) (by decide) (by decide) (by decide)

/-- Lowercased prefix captured by the first classification pattern in
setMetrics (mysqld_exporter.go line 229). -/
def prefCom : List Char := "com_".toList

/-- Prefix of the second classification pattern (line 230). -/
def prefConn : List Char := "connection_errors_".toList

/-- Prefix of the third classification pattern (line 231). -/
def prefInno : List Char := "innodb_rows_".toList

/-- Prefix of the fourth classification pattern (line 232). -/
def prefPerf : List Char := "performance_schema_".toList

/-- Model of FindStringSubmatch for an anchored Go pattern of the shape
caret, literal prefix, captured dot-star, dollar: it matches exactly when
the input starts with the prefix and the remainder contains no newline
(the Go dot metacharacter does not match a newline and the dollar anchors
at end of text), and the capture is that remainder. -/
def goSubmatch (p s : List Char) : Option (List Char) :=
  if s.take p.length = p ∧ (s.drop p.length).all (fun c => c != '\n') = true then
    some (s.drop p.length)
  else none

/-- Metric families of the switch in setMetrics (lines 247 to 258). -/
inductive Family
  | commands
  | connectionErrors
  | innodbRows
  | performanceSchema
  | generic
deriving DecidableEq

/-- Embedding of the classification step of setMetrics (lines 242 to 258):
the four regex submatches are taken in order and the first hit selects the
family and label; when none hit, the full lowercased name keys the generic
family. -/
def classify (name : List Char) : Family × List Char :=
  match goSubmatch prefCom name with
  | some l => (Family.commands, l)
  | none =>
    match goSubmatch prefConn name with
    | some l => (Family.connectionErrors, l)
    | none =>
      match goSubmatch prefInno name with
      | some l => (Family.innodbRows, l)
      | none =>
        match goSubmatch prefPerf name with
        | some l => (Family.performanceSchema, l)
        | none => (Family.generic, name)

theorem goSubmatch_append_self (p rest : List Char)
    (h : rest.all (fun c => c != '\n') = true) :
    goSubmatch p (p ++ rest) = some rest := by
  unfold goSubmatch
  rw [List.take_left, List.drop_left, if_pos ⟨rfl, h⟩]

theorem goSubmatch_none_of_differ (p q rest : List Char)
    (hne : q.take (min p.length q.length) ≠ p.take (min p.length q.length)) :
    goSubmatch p (q ++ rest) = none := by
  unfold goSubmatch
  rw [if_neg]
  rintro ⟨h1, _⟩
  apply hne
  have hm1 : min p.length q.length ≤ p.length := Nat.min_le_left _ _
  have hm2 : min p.length q.length ≤ q.length := Nat.min_le_right _ _
  calc q.take (min p.length q.length)
      = (q ++ rest).take (min p.length q.length) :=
        (List.take_append_of_le_length hm2).symm
    _ = ((q ++ rest).take p.length).take (min p.length q.length) := by
        rw [List.take_take, Nat.min_eq_left hm1]
    _ = p.take (min p.length q.length) := by rw [h1]

theorem take_conflict (name p q : List Char) (hp : name.take p.length = p)
    (hq : name.take q.length = q) (hle : p.length ≤ q.length)
    (hne : q.take p.length ≠ p) : False := by
  apply hne
  rw [← hq, List.take_take, Nat.min_eq_left hle, hp]

/-- C2 counterexample: the lowercased name com_a newline b starts with the
com_ prefix, so the claimed prefix semantics would classify it into the
commands family with label a newline b; the Go pattern does not match it,
because the dot metacharacter excludes the newline, and the code records
it in the generic family under the full name instead. -/
theorem c2_classify_counterexample :
    ("com_a\nb".toList).take prefCom.length = prefCom ∧
    classify ("com_a\nb".toList) = (Family.generic, "com_a\nb".toList) := by
  decide

/-- C2 amended: for every lowercased status name, the four patterns are
applied in order and the first match determines family and label, where a
pattern matches exactly when the name starts with its prefix and the
stripped remainder contains no newline character; the remainder, possibly
empty, is the label; when no pattern matches the value is recorded in the
generic family under the full name; and at most one prefix can start any
given name since the prefixes are pairwise disjoint. -/
theorem c2_classify_rules (name rest : List Char) :
    (name = prefCom ++ rest → rest.all (fun c => c != '\n') = true →
      classify name = (Family.commands, rest)) ∧
    (name = prefConn ++ rest → rest.all (fun c => c != '\n') = true →
      classify name = (Family.connectionErrors, rest)) ∧
    (name = prefInno ++ rest → rest.all (fun c => c != '\n') = true →
      classify name = (Family.innodbRows, rest)) ∧
    (name = prefPerf ++ rest → rest.all (fun c => c != '\n') = true →
      classify name = (Family.performanceSchema, rest)) ∧
    (goSubmatch prefCom name = none → goSubmatch prefConn name = none →
      goSubmatch prefInno name = none → goSubmatch prefPerf name = none →
      classify name = (Family.generic, name)) ∧
    (¬ (name.take prefCom.length = prefCom ∧ name.take prefConn.length = prefConn)) ∧
    (¬ (name.take prefCom.length = prefCom ∧ name.take prefInno.length = prefInno)) ∧
    (¬ (name.take prefCom.length = prefCom ∧ name.take prefPerf.length = prefPerf)) ∧
    (¬ (name.take prefConn.length = prefConn ∧ name.take prefInno.length = prefInno)) ∧
    (¬ (name.take prefConn.length = prefConn ∧ name.take prefPerf.length = prefPerf)) ∧
    (¬ (name.take prefInno.length = prefInno ∧ name.take prefPerf.length = prefPerf)) := by
  refine ⟨?_, ?_, ?_, ?_, ?_, ?_, ?_, ?_, ?_, ?_, ?_⟩
  · intro h1 h2
    subst h1
    unfold classify
    rw [goSubmatch_append_self prefCom rest h2]
  · intro h1 h2
    subst h1
    unfold classify
    rw [goSubmatch_none_of_differ prefCom prefConn rest (by decide),
      goSubmatch_append_self prefConn rest h2]
  · intro h1 h2
    subst h1
    unfold classify
    rw [goSubmatch_none_of_differ prefCom prefInno rest (by decide),
      goSubmatch_none_of_differ prefConn prefInno rest (by decide),
      goSubmatch_append_self prefInno rest h2]
  · intro h1 h2
    subst h1
    unfold classify
    rw [goSubmatch_none_of_differ prefCom prefPerf rest (by decide),
      goSubmatch_none_of_differ prefConn prefPerf rest (by decide),
      goSubmatch_none_of_differ prefInno prefPerf rest (by decide),
      goSubmatch_append_self prefPerf rest h2]
  · intro h1 h2 h3 h4
    unfold classify
    rw [h1, h2, h3, h4]
  · exact fun h => take_conflict name prefCom prefConn h.1 h.2 (by decide) (by decide)
  · exact fun h => take_conflict name prefCom prefInno h.1 h.2 (by decide) (by decide)
  · exact fun h => take_conflict name prefCom prefPerf h.1 h.2 (by decide) (by decide)
  · exact fun h => take_conflict name prefInno prefConn h.2 h.1 (by decide) (by decide)
  · exact fun h => take_conflict name prefConn prefPerf h.1 h.2 (by decide) (by decide)
  · exact fun h => take_conflict name prefInno prefPerf h.1 h.2 (by decide) (by decide)

theorem c2_classify_rules_witness :
    classify ("com_select".toList) = (Family.commands, "select".toList) :=
  (c2_classify_rules ("com_select".toList) ("select".toList)).1 (by decide) (by decide)

/-- Model of one prometheus gauge object as created by NewUntyped in
setGenericMetric (lines 219 to 222): the id field models the pointer
identity of the allocated object, name the Name option, value the current
gauge value, initially zero. -/
structure Gauge where
  id : Nat
  name : List Char
  value : Rat
deriving DecidableEq

/-- Model of the Exporter struct (lines 28 to 38). The dsn and the mutex
are not part of the sequential state; nextId is the allocator counter
backing the pointer-identity model of gauge objects; metrics is the Go
map from status name to gauge object; the four labeled CounterVec
families are maps from label value to stored value; duration, errorGauge
and totalScrapes are the three process metrics. -/
structure Exporter where
  totalScrapes : Nat
  errorGauge : Rat
  duration : Rat
  nextId : Nat
  metrics : List (List Char × Gauge)
  commands : List (List Char × Rat)
  connectionErrors : List (List Char × Rat)
  innodbRows : List (List Char × Rat)
  performanceSchema : List (List Char × Rat)
deriving DecidableEq

/-- Model of NewMySQLExporter (lines 41 to 81): every process metric
starts at zero, the registry map is empty and the four labeled families
have no children yet. -/
def NewMySQLExporter : Exporter :=
  { totalScrapes := 0
    errorGauge := 0
    duration := 0
    nextId := 0
    metrics := []
    commands := []
    connectionErrors := []
    innodbRows := []
    performanceSchema := [] }

/-- Lookup in the Go map from status name to gauge object. -/
def lookupG : List (List Char × Gauge) → List Char → Option Gauge
  | [], _ => none
  | (k, g) :: rest, n => if n = k then some g else lookupG rest n

/-- Model of calling Set on the gauge object stored under the given name:
the value field of that object changes, its identity does not; a missing
name leaves the map unchanged (setGenericMetric only calls this after
ensuring the name is present). -/
def setValueG : List (List Char × Gauge) → List Char → Rat → List (List Char × Gauge)
  | [], _, _ => []
  | (k, g) :: rest, n, v =>
    if n = k then (k, { g with value := v }) :: rest
    else (k, g) :: setValueG rest n v

/-- Embedding of setGenericMetric (lines 217 to 226): when the name is
absent a fresh gauge object is allocated and stored under it, then Set is
called on the object stored under the name. -/
def setGenericMetric (e : Exporter) (name : List Char) (value : Rat) : Exporter :=
  let e2 :=
    if (lookupG e.metrics name).isSome then e
    else { e with
            nextId := e.nextId + 1
            metrics := e.metrics ++ [(name, { id := e.nextId, name := name, value := 0 })] }
  { e2 with metrics := setValueG e2.metrics name value }

/-- Model of the With and Set pair on a labeled CounterVec (lines 249 to
255): the child for the label is created on demand and its value set. -/
def withSet : List (List Char × Rat) → List Char → Rat → List (List Char × Rat)
  | [], l, v => [(l, v)]
  | (k, w) :: rest, l, v =>
    if l = k then (k, v) :: rest else (k, w) :: withSet rest l v

/-- Model of strings.ToLower restricted to the simple one-to-one case. -/
def toLowerList (s : List Char) : List Char :=
  s.map Char.toLower

/-- Embedding of the body of the row loop of setMetrics (lines 234 to
259), with the float conversion strconv.ParseFloat of the database client
library passed in as the function pf: a row whose value pf rejects is
skipped, otherwise the lowercased name is classified and the value stored
in the selected family. -/
def setMetricsRow (pf : List Char → Option Rat) (e : Exporter)
    (row : List Char × List Char) : Exporter :=
  let name := toLowerList row.1
  match pf row.2 with
  | none => e
  | some value =>
    match classify name with
    | (Family.commands, l) => { e with commands := withSet e.commands l value }
    | (Family.connectionErrors, l) =>
        { e with connectionErrors := withSet e.connectionErrors l value }
    | (Family.innodbRows, l) => { e with innodbRows := withSet e.innodbRows l value }
    | (Family.performanceSchema, l) =>
        { e with performanceSchema := withSet e.performanceSchema l value }
    | (Family.generic, _) => setGenericMetric e name value

/-- Embedding of setMetrics (lines 228 to 260): the channel contents are
the list of rows, consumed in order. -/
def setMetrics (pf : List Char → Option Rat) (e : Exporter)
    (rows : List (List Char × List Char)) : Exporter :=
  rows.foldl (setMetricsRow pf) e

/-- Embedding of collectMetrics (lines 262 to 266): every gauge object of
the registry map is emitted. -/
def collectMetrics (e : Exporter) : List Gauge :=
  e.metrics.map (fun p => p.2)

/-- Sequence of direct setGenericMetric calls, the only mutation path of
the registry map. -/
def applyGenericOps (e : Exporter) (ops : List (List Char × Rat)) : Exporter :=
  ops.foldl (fun a p => setGenericMetric a p.1 p.2) e

/-- Sequence of whole scrape applications, each one list of rows. -/
def applyScrapes (pf : List Char → Option Rat) (e : Exporter)
    (ss : List (List (List Char × List Char))) : Exporter :=
  ss.foldl (setMetrics pf) e

theorem lookupG_append (a b : List (List Char × Gauge)) (n : List Char) :
    lookupG (a ++ b) n =
      match lookupG a n with
      | some g => some g
      | none => lookupG b n := by
  induction a with
  | nil => simp [lookupG]
  | cons p rest ih =>
    obtain ⟨k, g⟩ := p
    by_cases h : n = k
    · simp [lookupG, h]
    · simp [lookupG, h, ih]

theorem lookupG_setValueG_self (l : List (List Char × Gauge)) (n : List Char) (v : Rat) :
    lookupG (setValueG l n v) n =
      (lookupG l n).map (fun g => { g with value := v }) := by
  induction l with
  | nil => simp [setValueG, lookupG]
  | cons p rest ih =>
    obtain ⟨k, g⟩ := p
    by_cases h : n = k
    · simp [setValueG, lookupG, h]
    · simp [setValueG, lookupG, h, ih]

theorem lookupG_setValueG_ne (l : List (List Char × Gauge)) (m n : List Char) (v : Rat)
    (h : n ≠ m) :
    lookupG (setValueG l m v) n = lookupG l n := by
  induction l with
  | nil => simp [setValueG]
  | cons p rest ih =>
    obtain ⟨k, g⟩ := p
    by_cases hk : m = k
    · subst hk
      simp [setValueG, lookupG, h]
    · by_cases hn : n = k
      · simp [setValueG, lookupG, hk, hn, Ne.symm hk]
      · simp [setValueG, lookupG, hk, hn, ih]

theorem length_setValueG (l : List (List Char × Gauge)) (n : List Char) (v : Rat) :
    (setValueG l n v).length = l.length := by
  induction l with
  | nil => rfl
  | cons p rest ih =>
    obtain ⟨k, g⟩ := p
    by_cases h : n = k <;> simp [setValueG, h, ih]

theorem setGenericMetric_lookup_self (e : Exporter) (n : List Char) (v : Rat) :
    lookupG (setGenericMetric e n v).metrics n =
      some (match lookupG e.metrics n with
            | some g => { g with value := v }
            | none => { id := e.nextId, name := n, value := v }) := by
  unfold setGenericMetric
  cases hl : lookupG e.metrics n with
  | some g => simp [hl, lookupG_setValueG_self]
  | none =>
    simp only [hl, Option.isSome_none, Bool.false_eq_true, if_false]
    rw [lookupG_setValueG_self, lookupG_append, hl]
    simp [lookupG]

theorem setGenericMetric_lookup_ne (e : Exporter) (m n : List Char) (w : Rat)
    (h : n ≠ m) :
    lookupG (setGenericMetric e m w).metrics n = lookupG e.metrics n := by
  unfold setGenericMetric
  cases hl : lookupG e.metrics m with
  | some g => simp [hl, lookupG_setValueG_ne _ _ _ _ h]
  | none =>
    simp only [hl, Option.isSome_none, Bool.false_eq_true, if_false]
    rw [lookupG_setValueG_ne _ _ _ _ h, lookupG_append]
    cases hn : lookupG e.metrics n with
    | some g => rfl
    | none => simp [lookupG, h]

theorem setGenericMetric_frame_fields (e : Exporter) (n : List Char) (v : Rat) :
    (setGenericMetric e n v).commands = e.commands ∧
    (setGenericMetric e n v).connectionErrors = e.connectionErrors ∧
    (setGenericMetric e n v).innodbRows = e.innodbRows ∧
    (setGenericMetric e n v).performanceSchema = e.performanceSchema ∧
    (setGenericMetric e n v).duration = e.duration ∧
    (setGenericMetric e n v).errorGauge = e.errorGauge ∧
    (setGenericMetric e n v).totalScrapes = e.totalScrapes := by
  unfold setGenericMetric
  by_cases h : (lookupG e.metrics n).isSome = true <;> simp [h]

theorem setGenericMetric_length (e : Exporter) (n : List Char) (v : Rat) :
    (setGenericMetric e n v).metrics.length =
      if (lookupG e.metrics n).isSome = true then e.metrics.length
      else e.metrics.length + 1 := by
  unfold setGenericMetric
  by_cases h : (lookupG e.metrics n).isSome = true <;> simp [h, length_setValueG]

theorem setGenericMetric_preserves_handle (e : Exporter) (m n : List Char) (w : Rat)
    (g : Gauge) (h : lookupG e.metrics n = some g) :
    ∃ g2, lookupG (setGenericMetric e m w).metrics n = some g2 ∧
      g2.id = g.id ∧ g2.name = g.name := by
  by_cases hm : n = m
  · subst hm
    rw [setGenericMetric_lookup_self, h]
    exact ⟨_, rfl, rfl, rfl⟩
  · rw [setGenericMetric_lookup_ne e m n w hm, h]
    exact ⟨g, rfl, rfl, rfl⟩

theorem applyGenericOps_preserves_handle (ops : List (List Char × Rat)) (e : Exporter)
    (n : List Char) (g : Gauge) (h : lookupG e.metrics n = some g) :
    ∃ g2, lookupG (applyGenericOps e ops).metrics n = some g2 ∧
      g2.id = g.id ∧ g2.name = g.name := by
  induction ops generalizing e g with
  | nil => exact ⟨g, h, rfl, rfl⟩
  | cons p rest ih =>
    obtain ⟨g2, h2, hid, hname⟩ := setGenericMetric_preserves_handle e p.1 n p.2 g h
    obtain ⟨g3, h3, hid3, hname3⟩ := ih (setGenericMetric e p.1 p.2) g2 h2
    exact ⟨g3, h3, hid3.trans hid, hname3.trans hname⟩

/-- C3: setGenericMetric is idempotent by name. The first call for a name
stores a gauge object holding the given value; a second call for the same
name with a new value keeps the identical object, merely updating its
value, and allocates nothing; and any later sequence of calls still finds
an object with the same identity under that name. -/
theorem c3_registry_idempotent (e : Exporter) (n : List Char) (v v2 : Rat)
    (ops : List (List Char × Rat)) :
    ∃ g : Gauge,
      lookupG (setGenericMetric e n v).metrics n = some g ∧
      g.value = v ∧
      lookupG (setGenericMetric (setGenericMetric e n v) n v2).metrics n =
        some { g with value := v2 } ∧
      (setGenericMetric (setGenericMetric e n v) n v2).metrics.length =
        (setGenericMetric e n v).metrics.length ∧
      ∃ g2, lookupG (applyGenericOps (setGenericMetric e n v) ops).metrics n = some g2 ∧
        g2.id = g.id := by
  cases hl : lookupG e.metrics n with
  | some g0 =>
    have h1 : lookupG (setGenericMetric e n v).metrics n = some { g0 with value := v } := by
      rw [setGenericMetric_lookup_self, hl]
    refine ⟨{ g0 with value := v }, h1, rfl, ?_, ?_, ?_⟩
    · rw [setGenericMetric_lookup_self, h1]
    · rw [setGenericMetric_length, h1]
      simp
    · obtain ⟨g2, h2, hid, _⟩ :=
        applyGenericOps_preserves_handle ops (setGenericMetric e n v) n _ h1
      exact ⟨g2, h2, hid⟩
  | none =>
    have h1 : lookupG (setGenericMetric e n v).metrics n =
        some { id := e.nextId, name := n, value := v } := by
      rw [setGenericMetric_lookup_self, hl]
    refine ⟨{ id := e.nextId, name := n, value := v }, h1, rfl, ?_, ?_, ?_⟩
    · rw [setGenericMetric_lookup_self, h1]
    · rw [setGenericMetric_length, h1]
      simp
    · obtain ⟨g2, h2, hid, _⟩ :=
        applyGenericOps_preserves_handle ops (setGenericMetric e n v) n _ h1
      exact ⟨g2, h2, hid⟩

/-- C10: setGenericMetric only touches the registry entry for the given
name. Every other registry entry keeps both its object identity and its
stored value, and the four labeled families as well as the duration,
error and total-scrapes metrics are unchanged. -/
theorem c10_setGenericMetric_frame (e : Exporter) (n m : List Char) (v : Rat)
    (hm : m ≠ n) :
    lookupG (setGenericMetric e n v).metrics m = lookupG e.metrics m ∧
    (setGenericMetric e n v).commands = e.commands ∧
    (setGenericMetric e n v).connectionErrors = e.connectionErrors ∧
    (setGenericMetric e n v).innodbRows = e.innodbRows ∧
    (setGenericMetric e n v).performanceSchema = e.performanceSchema ∧
    (setGenericMetric e n v).duration = e.duration ∧
    (setGenericMetric e n v).errorGauge = e.errorGauge ∧
    (setGenericMetric e n v).totalScrapes = e.totalScrapes :=
  ⟨setGenericMetric_lookup_ne e n m v hm, setGenericMetric_frame_fields e n v⟩

theorem c10_setGenericMetric_frame_witness :
    lookupG (setGenericMetric NewMySQLExporter ("threads_connected".toList) 5).metrics
        ("uptime".toList) =
      lookupG NewMySQLExporter.metrics ("uptime".toList) ∧
    (setGenericMetric NewMySQLExporter ("threads_connected".toList) 5).commands =
      NewMySQLExporter.commands ∧
    (setGenericMetric NewMySQLExporter ("threads_connected".toList) 5).connectionErrors =
      NewMySQLExporter.connectionErrors ∧
    (setGenericMetric NewMySQLExporter ("threads_connected".toList) 5).innodbRows =
      NewMySQLExporter.innodbRows ∧
    (setGenericMetric NewMySQLExporter ("threads_connected".toList) 5).performanceSchema =
      NewMySQLExporter.performanceSchema ∧
    (setGenericMetric NewMySQLExporter ("threads_connected".toList) 5).duration =
      NewMySQLExporter.duration ∧
    (setGenericMetric NewMySQLExporter ("threads_connected".toList) 5).errorGauge =
      NewMySQLExporter.errorGauge ∧
    (setGenericMetric NewMySQLExporter ("threads_connected".toList) 5).totalScrapes =
      NewMySQLExporter.totalScrapes :=
  c10_setGenericMetric_frame NewMySQLExporter ("threads_connected".toList)
    ("uptime".toList) 5 (by decide)

/-- Value of a list of decimal digit characters. -/
def digitsToNat (ds : List Char) : Nat :=
  ds.foldl (fun a c => a * 10 + (c.toNat - 48)) 0

/-- Sample instantiation of the float conversion strconv.ParseFloat of
the Go standard library, which the pipeline definitions take as a
parameter: it accepts plain decimal literals of the shape digits, or
digits dot digits, and rejects everything else. This covers the concrete
inputs used in the closed theorems below; in particular it rejects the
empty string and the word Yes, exactly as strconv.ParseFloat does. -/
def simpleParseFloat (s : List Char) : Option Rat :=
  let intPart := s.takeWhile Char.isDigit
  let rest := s.dropWhile Char.isDigit
  if intPart = [] then none
  else
    match rest with
    | [] => some (digitsToNat intPart)
    | '.' :: frac =>
      if frac ≠ [] ∧ frac.all Char.isDigit = true then
        some ((digitsToNat intPart : Rat) + (digitsToNat frac : Rat) / ((10 : Rat) ^ frac.length))
      else none
    | _ => none

theorem lookupG_mem (l : List (List Char × Gauge)) (n : List Char) (g : Gauge)
    (h : lookupG l n = some g) : g ∈ l.map (fun p => p.2) := by
  induction l with
  | nil => simp [lookupG] at h
  | cons p rest ih =>
    obtain ⟨k, g2⟩ := p
    rw [lookupG] at h
    by_cases hk : n = k
    · rw [if_pos hk] at h
      injection h with h
      rw [List.map_cons, ← h]
      exact List.mem_cons_self _ _
    · rw [if_neg hk] at h
      rw [List.map_cons]
      exact List.mem_cons_of_mem _ (ih h)

theorem setMetricsRow_lookup_ne (pf : List Char → Option Rat) (e : Exporter)
    (row : List Char × List Char) (n : List Char) (h : toLowerList row.1 ≠ n) :
    lookupG (setMetricsRow pf e row).metrics n = lookupG e.metrics n := by
  unfold setMetricsRow
  cases pf row.2 with
  | none => rfl
  | some v =>
    rcases hc : classify (toLowerList row.1) with ⟨f, l⟩
    cases f <;> simp [hc]
    exact setGenericMetric_lookup_ne e (toLowerList row.1) n v (Ne.symm h)

theorem setMetricsRow_isSome (pf : List Char → Option Rat) (e : Exporter)
    (row : List Char × List Char) (n : List Char)
    (h : (lookupG e.metrics n).isSome = true) :
    (lookupG (setMetricsRow pf e row).metrics n).isSome = true := by
  by_cases hn : toLowerList row.1 = n
  · unfold setMetricsRow
    cases pf row.2 with
    | none => exact h
    | some v =>
      rcases hc : classify (toLowerList row.1) with ⟨f, l⟩
      cases f <;> simp [hc, h]
      rw [hn, setGenericMetric_lookup_self]
      rfl
  · rw [setMetricsRow_lookup_ne pf e row n hn]
    exact h

theorem setMetricsRow_length_le (pf : List Char → Option Rat) (e : Exporter)
    (row : List Char × List Char) :
    e.metrics.length ≤ (setMetricsRow pf e row).metrics.length := by
  unfold setMetricsRow
  cases pf row.2 with
  | none => exact Nat.le_refl _
  | some v =>
    rcases hc : classify (toLowerList row.1) with ⟨f, l⟩
    cases f <;> simp [hc]
    rw [setGenericMetric_length]
    by_cases h : (lookupG e.metrics (toLowerList row.1)).isSome = true <;> simp [h]

theorem setMetrics_lookup_ne (pf : List Char → Option Rat)
    (rows : List (List Char × List Char)) (e : Exporter) (n : List Char)
    (h : ∀ row ∈ rows, toLowerList row.1 ≠ n) :
    lookupG (setMetrics pf e rows).metrics n = lookupG e.metrics n := by
  induction rows generalizing e with
  | nil => rfl
  | cons row rest ih =>
    have h1 := setMetricsRow_lookup_ne pf e row n (h row (by simp))
    have h2 := ih (setMetricsRow pf e row) (fun r hr => h r (by simp [hr]))
    exact h2.trans h1

theorem setMetrics_isSome (pf : List Char → Option Rat)
    (rows : List (List Char × List Char)) (e : Exporter) (n : List Char)
    (h : (lookupG e.metrics n).isSome = true) :
    (lookupG (setMetrics pf e rows).metrics n).isSome = true := by
  induction rows generalizing e with
  | nil => exact h
  | cons row rest ih =>
    exact ih (setMetricsRow pf e row) (setMetricsRow_isSome pf e row n h)

theorem setMetrics_length_le (pf : List Char → Option Rat)
    (rows : List (List Char × List Char)) (e : Exporter) :
    e.metrics.length ≤ (setMetrics pf e rows).metrics.length := by
  induction rows generalizing e with
  | nil => exact Nat.le_refl _
  | cons row rest ih =>
    exact Nat.le_trans (setMetricsRow_length_le pf e row) (ih (setMetricsRow pf e row))

/-- C4: the set of generic-family names only grows. No operation removes
a registry entry; after any sequence of later scrapes none of which
mentions a previously observed name, that name still maps to the very
same gauge object with its last observed value, that object is still
emitted by every collection, every previously present name is still
present, and the registry never shrinks. -/
theorem applyScrapes_lookup_ne (pf : List Char → Option Rat)
    (ss : List (List (List Char × List Char))) (e : Exporter) (n : List Char)
    (habs : ∀ rows ∈ ss, ∀ row ∈ rows, toLowerList row.1 ≠ n) :
    lookupG (applyScrapes pf e ss).metrics n = lookupG e.metrics n := by
  induction ss generalizing e with
  | nil => rfl
  | cons rows rest ih =>
    have h1 := setMetrics_lookup_ne pf rows e n (habs rows (by simp))
    have h2 := ih (setMetrics pf e rows) (fun rs hrs => habs rs (by simp [hrs]))
    exact h2.trans h1

theorem applyScrapes_isSome (pf : List Char → Option Rat)
    (ss : List (List (List Char × List Char))) (e : Exporter) (n : List Char)
    (h : (lookupG e.metrics n).isSome = true) :
    (lookupG (applyScrapes pf e ss).metrics n).isSome = true := by
  induction ss generalizing e with
  | nil => exact h
  | cons rows rest ih =>
    exact ih (setMetrics pf e rows) (setMetrics_isSome pf rows e n h)

theorem applyScrapes_length_le (pf : List Char → Option Rat)
    (ss : List (List (List Char × List Char))) (e : Exporter) :
    e.metrics.length ≤ (applyScrapes pf e ss).metrics.length := by
  induction ss generalizing e with
  | nil => exact Nat.le_refl _
  | cons rows rest ih =>
    exact Nat.le_trans (setMetrics_length_le pf rows e) (ih (setMetrics pf e rows))

/-- C4: the set of generic-family names only grows. No operation removes
a registry entry; after any sequence of later scrapes none of which
mentions a previously observed name, that name still maps to the very
same gauge object with its last observed value, that object is still
emitted by every collection, every previously present name is still
present, and the registry never shrinks. -/
theorem c4_registry_grow_only (pf : List Char → Option Rat) (e : Exporter)
    (ss : List (List (List Char × List Char))) (n : List Char) (g : Gauge)
    (h : lookupG e.metrics n = some g)
    (habs : ∀ rows ∈ ss, ∀ row ∈ rows, toLowerList row.1 ≠ n) :
    lookupG (applyScrapes pf e ss).metrics n = some g ∧
    g ∈ collectMetrics (applyScrapes pf e ss) ∧
    (∀ m, (lookupG e.metrics m).isSome = true →
      (lookupG (applyScrapes pf e ss).metrics m).isSome = true) ∧
    e.metrics.length ≤ (applyScrapes pf e ss).metrics.length := by
  have hlook : lookupG (applyScrapes pf e ss).metrics n = some g :=
    (applyScrapes_lookup_ne pf ss e n habs).trans h
  exact ⟨hlook, lookupG_mem _ n g hlook,
    fun m => applyScrapes_isSome pf ss e m, applyScrapes_length_le pf ss e⟩

theorem c4_registry_grow_only_witness :
    lookupG
        (applyScrapes simpleParseFloat
          (setGenericMetric NewMySQLExporter ("foo_bar".toList) 1)
          [[("Threads_running".toList, "7".toList)]]).metrics ("foo_bar".toList) =
      some { id := 0, name := "foo_bar".toList, value := 1 } ∧
    ({ id := 0, name := "foo_bar".toList, value := 1 } : Gauge) ∈
      collectMetrics
        (applyScrapes simpleParseFloat
          (setGenericMetric NewMySQLExporter ("foo_bar".toList) 1)
          [[("Threads_running".toList, "7".toList)]]) :=
  ⟨(c4_registry_grow_only simpleParseFloat
      (setGenericMetric NewMySQLExporter ("foo_bar".toList) 1)
      [[("Threads_running".toList, "7".toList)]] ("foo_bar".toList)
      { id := 0, name := "foo_bar".toList, value := 1 }
      (by decide) (by decide)).1,
   (c4_registry_grow_only simpleParseFloat
      (setGenericMetric NewMySQLExporter ("foo_bar".toList) 1)
      [[("Threads_running".toList, "7".toList)]] ("foo_bar".toList)
      { id := 0, name := "foo_bar".toList, value := 1 }
      (by decide) (by decide)).2.1⟩

/-- Environment of one scrape cycle: the outcome of every external call
made by scrape (lines 116 to 215). startTime and endTime model the two
time.Now readings, one at entry and one at whichever exit is taken.
statusRows is the result set of the global status query; statusScanErr =
some k means Scan fails when decoding row k, after the first k rows were
delivered. slaveCols is the column list of the replication status query,
slaveRows its result set (row-major), slaveScanErr the analogous scan
failure position. The error booleans make the corresponding call fail. -/
structure ScrapeEnv where
  startTime : Int
  endTime : Int
  openErr : Bool
  statusQueryErr : Bool
  statusRows : List (List Char × List Char)
  statusScanErr : Option Nat
  slaveQueryErr : Bool
  slaveColsErr : Bool
  slaveCols : List (List Char)
  slaveRows : List (List (List Char))
  slaveScanErr : Option Nat
deriving DecidableEq

/-- Duration computed at every exit of scrape: the difference of the two
UnixNano readings divided by one billion (line 127 and its copies). -/
def elapsedSeconds (env : ScrapeEnv) : Rat :=
  ((env.endTime - env.startTime : Int) : Rat) / 1000000000

/-- Helper for the slave row loop (lines 190 to 200): each Scan
overwrites slaveData, so after the loop it holds the last row, or the
initial all-empty slice made at line 179 when there were no rows. -/
def lastRow (d : List (List Char)) : List (List (List Char)) → List (List Char)
  | [] => d
  | [r] => r
  | _ :: rs => lastRow d rs

/-- True when the Scan of the global status rows fails before the result
set is exhausted. -/
def statusScanFails (env : ScrapeEnv) : Bool :=
  match env.statusScanErr with
  | some k => k < env.statusRows.length
  | none => false

/-- Rows of the global status query delivered before the loop stops. -/
def statusEmitted (env : ScrapeEnv) : List (List Char × List Char) :=
  match env.statusScanErr with
  | some k => env.statusRows.take k
  | none => env.statusRows

/-- True when the Scan of the slave status rows fails. -/
def slaveScanFails (env : ScrapeEnv) : Bool :=
  match env.slaveScanErr with
  | some k => k < env.slaveRows.length
  | none => false

/-- Embedding of scrape (lines 116 to 215). The function returns the
updated process metrics together with the list of rows sent on the
channel, in order. Every exit path is reproduced: the unconditional
counter increment, the five failure branches that set the error gauge and
the duration, the status scan failure branch that returns without setting
either, and the success path that emits one pair per slave column taking
values from the last slave row (all empty when there was no row) through
parseStatus, then clears the error gauge. -/
def scrape (env : ScrapeEnv) (e : Exporter) : Exporter × List (List Char × List Char) :=
  let e1 := { e with totalScrapes := e.totalScrapes + 1 }
  if env.openErr then
    ({ e1 with errorGauge := 1, duration := elapsedSeconds env }, [])
  else if env.statusQueryErr then
    ({ e1 with errorGauge := 1, duration := elapsedSeconds env }, [])
  else if statusScanFails env then
    (e1, statusEmitted env)
  else if env.slaveQueryErr then
    ({ e1 with errorGauge := 1, duration := elapsedSeconds env }, env.statusRows)
  else if env.slaveColsErr then
    ({ e1 with errorGauge := 1, duration := elapsedSeconds env }, env.statusRows)
  else if slaveScanFails env then
    ({ e1 with errorGauge := 1, duration := elapsedSeconds env }, env.statusRows)
  else
    let slaveData := lastRow (List.replicate env.slaveCols.length []) env.slaveRows
    let slaveEmitted := (env.slaveCols.zip slaveData).map (fun p => (p.1, parseStatus p.2))
    ({ e1 with errorGauge := 0, duration := elapsedSeconds env },
      env.statusRows ++ slaveEmitted)

/-- C5: every invocation of scrape increments the total-scrapes counter
exactly once, on every control path, in particular when opening the
connection or running the first query fails; on such a failure the cycle
still completes (the embedding is a total function), the error outcome is
set to one and the duration outcome to the elapsed time at that exit. -/
theorem c5_scrape_total_and_failure (env : ScrapeEnv) (e : Exporter) :
    (scrape env e).1.totalScrapes = e.totalScrapes + 1 ∧
    (env.openErr = true →
      (scrape env e).1.errorGauge = 1 ∧
      (scrape env e).1.duration = elapsedSeconds env) ∧
    (env.statusQueryErr = true →
      (scrape env e).1.errorGauge = 1 ∧
      (scrape env e).1.duration = elapsedSeconds env) := by
  refine ⟨?_, ?_, ?_⟩
  · unfold scrape
    split_ifs <;> rfl
  · intro h
    simp [scrape, h]
  · intro h
    by_cases h1 : env.openErr <;> simp [scrape, h1, h]

/-- Concrete environment exhibiting a row-decoding failure in the middle
of the global status result set: two rows, Scan fails on the second. -/
def envScanErr : ScrapeEnv :=
  { startTime := 0
    endTime := 2000000000
    openErr := false
    statusQueryErr := false
    statusRows := [("Aborted_clients".toList, "1".toList),
                   ("Aborted_connects".toList, "2".toList)]
    statusScanErr := some 1
    slaveQueryErr := false
    slaveColsErr := false
    slaveCols := []
    slaveRows := []
    slaveScanErr := none }

/-- C6: evaluation at the failing input. A scan error in the middle of
the first result set abandons the remaining rows and the rows already
emitted are still applied to the registry, as the claim says; but the
branch at lines 147 to 150 of the source returns without setting the
error gauge or the duration, unlike every other failure branch of scrape,
so the cycle is NOT marked errored: starting from a fresh exporter the
error gauge stays at zero and the duration stays at zero. -/
theorem c6_scan_error_not_marked :
    (scrape envScanErr NewMySQLExporter).1.errorGauge = 0 ∧
    (scrape envScanErr NewMySQLExporter).1.duration = 0 ∧
    (scrape envScanErr NewMySQLExporter).1.totalScrapes = 1 ∧
    (scrape envScanErr NewMySQLExporter).2 = [("Aborted_clients".toList, "1".toList)] ∧
    lookupG
        (setMetrics simpleParseFloat (scrape envScanErr NewMySQLExporter).1
          (scrape envScanErr NewMySQLExporter).2).metrics
        ("aborted_clients".toList) =
      some { id := 0, name := "aborted_clients".toList, value := 1 } := by
  decide

theorem zip_replicate_parse (cols : List (List Char)) (x : List Char) :
    (cols.zip (List.replicate cols.length x)).map (fun p => (p.1, parseStatus p.2)) =
      cols.map (fun c => (c, parseStatus x)) := by
  induction cols with
  | nil => rfl
  | cons c cs ih => simp [List.replicate_succ, ih]

theorem setMetricsRow_empty_val (pf : List Char → Option Rat) (hpf : pf [] = none)
    (y : Exporter) (c : List Char) :
    setMetricsRow pf y (c, ([] : List Char)) = y := by
  simp [setMetricsRow, hpf]

theorem setMetrics_empty_vals (pf : List Char → Option Rat) (hpf : pf [] = none)
    (y : Exporter) (cols : List (List Char)) :
    setMetrics pf y (cols.map (fun c => (c, ([] : List Char)))) = y := by
  induction cols generalizing y with
  | nil => rfl
  | cons c cs ih =>
    unfold setMetrics
    rw [List.map_cons, List.foldl_cons, setMetricsRow_empty_val pf hpf y c]
    exact ih y

theorem scrape_success (env : ScrapeEnv) (e : Exporter)
    (h1 : env.openErr = false) (h2 : env.statusQueryErr = false)
    (h3 : statusScanFails env = false) (h4 : env.slaveQueryErr = false)
    (h5 : env.slaveColsErr = false) (h6 : slaveScanFails env = false) :
    scrape env e =
      ({ e with
          totalScrapes := e.totalScrapes + 1
          errorGauge := 0
          duration := elapsedSeconds env },
        env.statusRows ++
          ((env.slaveCols.zip
              (lastRow (List.replicate env.slaveCols.length []) env.slaveRows)).map
            (fun p => (p.1, parseStatus p.2)))) := by
  unfold scrape
  simp [h1, h2, h3, h4, h5, h6]

/-- C8: when the replication status query returns zero rows the cycle is
not an error: scrape finishes with the error gauge at zero, the rows it
emits for the slave source all carry the empty textual value which the
float conversion rejects, so applying the emitted rows to any exporter
stages exactly what the status rows alone stage, and nothing from the
slave source reaches the registry. -/
theorem c8_no_slave_rows (env : ScrapeEnv) (e x : Exporter)
    (pf : List Char → Option Rat)
    (h1 : env.openErr = false) (h2 : env.statusQueryErr = false)
    (h3 : env.statusScanErr = none) (h4 : env.slaveQueryErr = false)
    (h5 : env.slaveColsErr = false) (h6 : env.slaveRows = [])
    (hpf : pf [] = none) :
    (scrape env e).1.errorGauge = 0 ∧
    (scrape env e).2 =
      env.statusRows ++ env.slaveCols.map (fun c => (c, ([] : List Char))) ∧
    setMetrics pf x (scrape env e).2 = setMetrics pf x env.statusRows := by
  have hsf : statusScanFails env = false := by simp [statusScanFails, h3]
  have hslf : slaveScanFails env = false := by
    unfold slaveScanFails
    rw [h6]
    cases env.slaveScanErr <;> simp
  have hs := scrape_success env e h1 h2 hsf h4 h5 hslf
  have hemit : (scrape env e).2 =
      env.statusRows ++ env.slaveCols.map (fun c => (c, ([] : List Char))) := by
    rw [hs]
    rw [h6]
    show env.statusRows ++
        ((env.slaveCols.zip (List.replicate env.slaveCols.length [])).map
          (fun p => (p.1, parseStatus p.2))) = _
    rw [zip_replicate_parse]
    have hp : parseStatus ([] : List Char) = [] := by decide
    rw [hp]
  refine ⟨by rw [hs], hemit, ?_⟩
  rw [hemit]
  unfold setMetrics
  rw [List.foldl_append]
  exact setMetrics_empty_vals pf hpf _ env.slaveCols

theorem c5_scrape_total_and_failure_witness :
    (scrape { envScanErr with openErr := true } NewMySQLExporter).1.totalScrapes = 1 ∧
    (scrape { envScanErr with openErr := true } NewMySQLExporter).1.errorGauge = 1 ∧
    (scrape { envScanErr with openErr := true } NewMySQLExporter).1.duration =
      elapsedSeconds { envScanErr with openErr := true } :=
  ⟨(c5_scrape_total_and_failure { envScanErr with openErr := true } NewMySQLExporter).1,
    ((c5_scrape_total_and_failure { envScanErr with openErr := true }
        NewMySQLExporter).2.1 rfl).1,
    ((c5_scrape_total_and_failure { envScanErr with openErr := true }
        NewMySQLExporter).2.1 rfl).2⟩

/-- Concrete environment of a healthy scrape against a non-replica
server: one global status row, two slave columns, zero slave rows. -/
def envNoSlave : ScrapeEnv :=
  { startTime := 0
    endTime := 3000000000
    openErr := false
    statusQueryErr := false
    statusRows := [("Threads_connected".toList, "5".toList)]
    statusScanErr := none
    slaveQueryErr := false
    slaveColsErr := false
    slaveCols := ["Slave_IO_State".toList, "Seconds_Behind_Master".toList]
    slaveRows := []
    slaveScanErr := none }

theorem c8_no_slave_rows_witness :
    (scrape envNoSlave NewMySQLExporter).1.errorGauge = 0 ∧
    setMetrics simpleParseFloat NewMySQLExporter (scrape envNoSlave NewMySQLExporter).2 =
      setMetrics simpleParseFloat NewMySQLExporter envNoSlave.statusRows :=
  ⟨(c8_no_slave_rows envNoSlave NewMySQLExporter NewMySQLExporter simpleParseFloat
      rfl rfl rfl rfl rfl rfl (by decide)).1,
    (c8_no_slave_rows envNoSlave NewMySQLExporter NewMySQLExporter simpleParseFloat
      rfl rfl rfl rfl rfl rfl (by decide)).2.2⟩

/-- Definition following the words of the claim, for comparison with the
code: the claim says the textual value of every global status row is
first canonicalized by parseStatus and then converted to a number. The
code under test feeds global status values to the conversion raw;
parseStatus is only applied to slave column values inside scrape. -/
def setMetricsRowSpec (pf : List Char → Option Rat) (e : Exporter)
    (row : List Char × List Char) : Exporter :=
  setMetricsRow pf e (row.1, parseStatus row.2)

/-- C7 counterexample: on a global status row carrying the value Yes the
claim mandates canonicalization first, under which the value becomes 1,
parses, and a metric is staged; the code hands the raw value to the float
conversion, which rejects it, and drops the row, so the spec-following
row processor and the embedded one disagree at this concrete input. -/
theorem c7_statusparser_counterexample :
    simpleParseFloat (parseStatus ("Yes".toList)) = some 1 ∧
    simpleParseFloat ("Yes".toList) = none ∧
    setMetricsRow simpleParseFloat NewMySQLExporter
        ("Ssl_session_cache_mode".toList, "Yes".toList) = NewMySQLExporter ∧
    setMetricsRowSpec simpleParseFloat NewMySQLExporter
        ("Ssl_session_cache_mode".toList, "Yes".toList) ≠
      setMetricsRow simpleParseFloat NewMySQLExporter
        ("Ssl_session_cache_mode".toList, "Yes".toList) := by
  decide

/-- C7 amended: the textual value of a global status row is parsed as a
floating point number directly, without canonicalization by parseStatus;
a row whose value the conversion rejects is dropped silently: the
exporter is left completely unchanged, so no metric is created or
updated, and the error outcome is untouched. -/
theorem c7_nonnumeric_dropped (pf : List Char → Option Rat) (e : Exporter)
    (nm v : List Char) (rows : List (List Char × List Char))
    (h : pf v = none) :
    setMetricsRow pf e (nm, v) = e ∧
    setMetrics pf e ((nm, v) :: rows) = setMetrics pf e rows ∧
    (setMetricsRow pf e (nm, v)).errorGauge = e.errorGauge := by
  have h1 : setMetricsRow pf e (nm, v) = e := by simp [setMetricsRow, h]
  refine ⟨h1, ?_, by rw [h1]⟩
  unfold setMetrics
  rw [List.foldl_cons, h1]

theorem c7_nonnumeric_dropped_witness :
    setMetricsRow simpleParseFloat NewMySQLExporter
        ("Slave_running".toList, "OFF".toList) = NewMySQLExporter ∧
    setMetrics simpleParseFloat NewMySQLExporter
        [("Slave_running".toList, "OFF".toList)] =
      setMetrics simpleParseFloat NewMySQLExporter [] ∧
    (setMetricsRow simpleParseFloat NewMySQLExporter
        ("Slave_running".toList, "OFF".toList)).errorGauge =
      NewMySQLExporter.errorGauge :=
  c7_nonnumeric_dropped simpleParseFloat NewMySQLExporter
    ("Slave_running".toList) ("OFF".toList) [] (by decide)
